import Mathlib

/-!
Verification development for the compliance audit and key-lifecycle core of the
Unified Health Record Hub repository.  The definitions below are a shallow
embedding of the JavaScript sources:

* src/backend/models/AuditLog.js        (audit ledger, Merkle batching, verification)
* src/unnamed/part_016                  (KeyManagementService and the chunked GCM AesService)
* src/backend/aesService.js             (the CBC AesService)
* src/backend/config/database.js        (the PHI column indicator list)

External collaborators that are not part of the repository (Node crypto
primitives, the blockchain anchor client, the quantum key vault and key
derivation backend, the FHIR server used as a metadata store) are modelled as
deterministic stand-ins or as explicit environment parameters, with a doc
comment at each such definition.  JavaScript runtime failures (throw sites)
are modelled with an explicit error type.
-/

namespace UHRH

/-- Errors observable from the embedded JavaScript code: runtime TypeErrors,
generic thrown Error objects with their message, the persistence layer
rejecting a duplicate primary key, the anchor service being unreachable
(modelled from the spec, the anchor client is not in the repository), the GCM
authentication failure thrown by decipher.final, and the CBC padding failure
thrown by decipher.final. -/
inductive JsErr where
  | typeError (msg : String)
  | jsError (msg : String)
  | uniqueViolation
  | anchorUnavailable
  | authFailure
  | badDecrypt
deriving Repr, DecidableEq

/-- Modelled from the spec: the sha256 digest provided by the Node crypto
module, which is external to the repository.  The development relies only on
the digest being a deterministic function of the input string together with
concrete inequalities of specific outputs, which are checked by evaluation;
this mirrors using a fixed collision resistant hash. -/
def sha256 (s : String) : String :=
  toString (s.foldl (fun a c => (a * 131 + c.toNat + 17) % 1000000007) 7)

namespace AuditLog

/-- The action enum of the LogEntry model in src/backend/models/AuditLog.js. -/
inductive Action where
  | READ | WRITE | DELETE | PREDICT | LOGIN | EXPORT
deriving Repr, DecidableEq

/-- Rendering of an action value as the string stored in the database. -/
def Action.str : Action → String
  | .READ => "READ" | .WRITE => "WRITE" | .DELETE => "DELETE"
  | .PREDICT => "PREDICT" | .LOGIN => "LOGIN" | .EXPORT => "EXPORT"

/-- The metadata argument of AuditLog.log.  The data field is modelled as the
JSON text of the JavaScript value, and query as a key-value list standing for
the JSONB object. -/
structure Metadata where
  resourceType : Option String
  resourceId : Option String
  ip : Option String
  userAgent : Option String
  query : Option (List (String × String))
  data : Option String
deriving Repr, DecidableEq

/-- One row of the LogEntry table of src/backend/models/AuditLog.js.  The id
is a UUIDv4 primary key, timestamp is the creation instant in milliseconds. -/
structure LogEntry where
  id : String
  timestamp : Nat
  userId : String
  action : Action
  resourceType : Option String
  resourceId : Option String
  ipAddress : Option String
  userAgent : Option String
  queryParams : Option (List (String × String))
  dataHash : Option String
  blockchainTxId : Option String
  verified : Bool
deriving Repr, DecidableEq

/-- Hash of the metadata data field, as in the private hashData method
(sha256 over the JSON text of the value). -/
def hashData (d : String) : String := sha256 d

/-- Template rendering of a nullable string field, as in a JavaScript
template literal where a null field prints as null. -/
def optStr : Option String → String
  | none => "null"
  | some s => s

/-- The private hashEntry method: sha256 over the template
userId bar action bar resourceType bar timestamp.  This is a re-derivation
from entry fields; the stored dataHash is not used. -/
def hashEntry (e : LogEntry) : String :=
  sha256 (e.userId ++ "|" ++ e.action.str ++ "|" ++ optStr e.resourceType
    ++ "|" ++ toString e.timestamp)

/-- A batch submitted to the anchor: the Merkle root, the claimed entry ids
and the returned transaction hash.  The JavaScript code keeps this only in
the submission to the blockchain client; the model records it so batch
formation is observable. -/
structure Batch where
  merkleRoot : String
  entryIds : List String
  txHash : String
deriving Repr, DecidableEq

/-- The persisted state of the audit ledger: the LogEntry rows in insertion
order and the batches that have been anchored. -/
structure AuditDb where
  rows : List LogEntry
  batches : List Batch
deriving Repr, DecidableEq

/-- Environment of one AuditLog call: whether BLOCKCHAIN_AUDIT is enabled,
the current time, and the external anchor service.  Modelled from the spec:
the blockchain client module is not in the repository; submit yields the
transaction hash for a root when the anchor is reachable and confirm answers
whether a recomputed hash verifies against a transaction, each being none
when the anchor is unreachable. -/
structure AnchorEnv where
  blockchainAudit : Bool
  now : Nat
  anchor : Option (String → String)
  confirm : Option (String → String → Bool)

/-- Stable insertion of an entry into a list sorted by ascending timestamp. -/
def insertTs (e : LogEntry) : List LogEntry → List LogEntry
  | [] => [e]
  | f :: r => if e.timestamp ≤ f.timestamp then e :: f :: r else f :: insertTs e r

/-- Stable sort by ascending timestamp, modelling the ORDER BY timestamp ASC
of the getUnverifiedBatch query. -/
def sortByTs (l : List LogEntry) : List LogEntry :=
  l.foldr insertTs []

/-- The private getUnverifiedBatch query: all rows with verified false,
ordered by timestamp ascending, limited to 100. -/
def getUnverifiedBatch (db : AuditDb) : List LogEntry :=
  (sortByTs (db.rows.filter (fun e => !e.verified))).take 100

/-- The private calculateMerkleRoot method.  The JavaScript declares the
hashes array with const and then reassigns it inside the while loop, so the
method throws a TypeError whenever the loop is entered, that is whenever two
or more leaf hashes are given.  With one leaf the loop is skipped and the
leaf is returned; with no leaves the method returns undefined, modelled as
none. -/
def calculateMerkleRoot : List String → Except JsErr (Option String)
  | [] => .ok none
  | [h] => .ok (some h)
  | _ :: _ :: _ => .error (.typeError "Assignment to constant variable")

/-- Marking every claimed entry verified with the returned transaction hash,
and recording the batch, as in the update call of anchorToBlockchain. -/
def markVerified (db : AuditDb) (ids : List String) (root tx : String) : AuditDb :=
  { rows := db.rows.map (fun e =>
      if ids.contains e.id then { e with blockchainTxId := some tx, verified := true } else e),
    batches := db.batches ++ [⟨root, ids, tx⟩] }

/-- The wake condition of the anchoring check: the unverified batch has
reached five entries, or its oldest entry is more than ten minutes old. -/
def anchorTrigger (env : AnchorEnv) (batch : List LogEntry) : Bool :=
  decide (5 ≤ batch.length) ||
    (match batch with
      | [] => false
      | b0 :: _ => decide (600000 < env.now - b0.timestamp))

/-- The private anchorToBlockchain method, run from the awaited afterCreate
hook.  It pulls the unverified batch and, when the trigger fires, computes
the Merkle root over the re-derived entry hashes and submits it to the
anchor, marking the claimed entries verified on success. -/
def anchorToBlockchain (env : AnchorEnv) (db : AuditDb) : Except JsErr AuditDb :=
  if env.blockchainAudit then
    if anchorTrigger env (getUnverifiedBatch db) then
      match calculateMerkleRoot ((getUnverifiedBatch db).map hashEntry) with
      | .error e => .error e
      | .ok none => .ok db
      | .ok (some root) =>
        match env.anchor with
        | none => .error .anchorUnavailable
        | some submit =>
          .ok (markVerified db ((getUnverifiedBatch db).map (·.id)) root (submit root))
    else .ok db
  else .ok db

/-- The row object that LogEntry.create persists for one log call: the
metadata fields are stored verbatim, the data field as its hash, and the
row starts unanchored and unverified. -/
def mkRow (now : Nat) (uuid userId : String) (action : Action) (meta : Metadata) :
    LogEntry :=
  { id := uuid, timestamp := now, userId := userId, action := action,
    resourceType := meta.resourceType, resourceId := meta.resourceId,
    ipAddress := meta.ip, userAgent := meta.userAgent,
    queryParams := meta.query, dataHash := meta.data.map hashData,
    blockchainTxId := none, verified := false }

/-- The log method of AuditLog.  A fresh UUIDv4 id is an explicit argument
(the randomness of the generator made an input).  The row is inserted —
rejected by the primary key constraint if the id already exists — and the
awaited afterCreate hook then runs anchorToBlockchain: a hook failure
rejects the log call itself while the row stays persisted. -/
def log (env : AnchorEnv) (db : AuditDb) (uuid userId : String) (action : Action)
    (meta : Metadata) : AuditDb × Except JsErr LogEntry :=
  if db.rows.any (fun r => r.id = uuid) then (db, .error .uniqueViolation)
  else
    let e : LogEntry := mkRow env.now uuid userId action meta
    let db1 : AuditDb := { db with rows := db.rows ++ [e] }
    match anchorToBlockchain env db1 with
    | .error err => (db1, .error err)
    | .ok db2 => (db2, .ok e)

/-- The verifyEntry method: not found if no row has the id, false when the
row has no blockchain transaction, otherwise the anchor confirmation of the
re-derived entry hash, with the anchor unreachability surfacing as its own
error. -/
def verifyEntry (env : AnchorEnv) (db : AuditDb) (entryId : String) : Except JsErr Bool :=
  match db.rows.find? (fun r => r.id = entryId) with
  | none => .error (.jsError "Entry not found")
  | some e =>
    match e.blockchainTxId with
    | none => .ok false
    | some tx =>
      match env.confirm with
      | none => .error .anchorUnavailable
      | some f => .ok (f tx (hashEntry e))

/-- The PHI indicator column names of the isPHIColumn helper in
src/backend/config/database.js. -/
def phiColumns : List String :=
  ["ssn", "mrn", "phone", "address", "birth_date", "email", "insurance_id"]

end AuditLog

namespace KMS

/-- One extension item of a FHIR Device resource, as used by the key
metadata store of the KeyManagementService in src/unnamed/part_016. -/
structure ExtItem where
  url : String
  value : String
deriving Repr, DecidableEq

/-- One extension of a FHIR Device resource: a url and its nested items. -/
structure Ext where
  url : String
  items : List ExtItem
deriving Repr, DecidableEq

/-- The FHIR Device resource under which storeKeyMetadata persists one key
record.  The owner is modelled as the reference string of the owner object,
none when the key has no owner.  The FHIR server is external to the
repository; the model gives the created resource the id Device- followed by
the key id. -/
structure Device where
  id : String
  identifierValue : String
  typeCode : String
  owner : Option String
  tags : List String
  exts : List Ext
deriving Repr, DecidableEq

/-- A rotation policy record of getRotationPolicy. -/
structure RotationPolicy where
  name : String
  maxLifetime : Option Nat
  usageLimit : Option Nat
deriving Repr, DecidableEq

/-- The named policy table of the private getRotationPolicy method. -/
def lookupPolicy : String → Option RotationPolicy
  | "default" => some ⟨"default", some 90, some 1000⟩
  | "strict" => some ⟨"strict", some 30, some 500⟩
  | "long-term" => some ⟨"long-term", some 365, none⟩
  | "ephemeral" => some ⟨"ephemeral", some 1, some 10⟩
  | _ => none

/-- The per-key-type fallback of the private getDefaultPolicy method. -/
def getDefaultPolicy : String → RotationPolicy
  | "data-encryption" => ⟨"default", some 90, some 1000⟩
  | "authentication" => ⟨"strict", some 30, some 500⟩
  | "audit-log" => ⟨"long-term", some 365, none⟩
  | _ => ⟨"default", some 90, some 1000⟩

/-- The private getRotationPolicy method with both arguments. -/
def getRotationPolicy (name keyType : String) : RotationPolicy :=
  (lookupPolicy name).getD (getDefaultPolicy keyType)

/-- The private getRotationPolicy method as called from parseKeyMetadata
with only the stored name: the keyType argument is undefined there, so the
switch falls through to the generic default policy. -/
def getRotationPolicyParse (name : String) : RotationPolicy :=
  (lookupPolicy name).getD ⟨"default", some 90, some 1000⟩

/-- The private getSecurityTags method. -/
def securityTags : String → List String
  | "authentication" => ["AUTHENTICATION"]
  | "audit-log" => ["INTEGRITY"]
  | "data-encryption" => ["CONFIDENTIAL"]
  | _ => ["CONFIDENTIAL"]

/-- The private storeKeyMetadata method: the Device resource it creates
carries one key-metadata extension whose items are exactly the quantum
fingerprint, the rotation policy name and the public key.  No status item is
ever stored. -/
def storeKeyMetadata (keyId keyType : String) (owner : Option String)
    (publicKey quantumFingerprint : String) (policy : RotationPolicy)
    (tags : List String) : Device :=
  { id := "Device-" ++ keyId,
    identifierValue := keyId,
    typeCode := keyType,
    owner := owner,
    tags := tags,
    exts := [⟨"http://hl7.org/fhir/key-metadata",
      [⟨"quantumFingerprint", quantumFingerprint⟩,
       ⟨"rotationPolicy", policy.name⟩,
       ⟨"publicKey", publicKey⟩]⟩] }

/-- The parsed key metadata object returned by the private parseKeyMetadata
method.  Its fields are exactly the fields of the object literal the method
returns; in particular there is no extensions field, which is what makes
updateKeyMetadata throw. -/
structure ParsedKey where
  deviceId : String
  keyId : String
  keyType : String
  owner : Option String
  publicKey : String
  quantumFingerprint : String
  rotationPolicy : RotationPolicy
  status : String
deriving Repr, DecidableEq

/-- The private parseKeyMetadata method.  The status is read from a status
item of the key-metadata extension and defaults to active when the item is
absent — and storeKeyMetadata never writes such an item, so every stored key
parses with status active. -/
def parseKeyMetadata (d : Device) : ParsedKey :=
  let keyExt := (d.exts.find? (fun e => e.url = "http://hl7.org/fhir/key-metadata")).getD ⟨"", []⟩
  let item := fun (u : String) =>
    ((keyExt.items.find? (fun i => i.url = u)).map (fun i => i.value))
  { deviceId := d.id,
    keyId := d.identifierValue,
    keyType := d.typeCode,
    owner := d.owner,
    publicKey := (item "publicKey").getD "",
    quantumFingerprint := (item "quantumFingerprint").getD "",
    rotationPolicy := getRotationPolicyParse ((item "rotationPolicy").getD ""),
    status := (item "status").getD "active" }

/-- A cached private key with its expiry instant, as stored in the keyCache
map. -/
structure CacheEntry where
  privateKey : String
  expiresAt : Nat
deriving Repr, DecidableEq

/-- State of the KeyManagementService: the stored Device resources, the
in-memory key cache, the current time, and the external collaborators.
Modelled from the spec: the quantum key vault and the UUID generator are not
part of the repository; the uuid stream supplies crypto.randomUUID values,
pubGen and fpGen the public key and fingerprint of each generated material,
and vaultPriv the private material the vault returns for a key id — the same
material at generation time and at retrieval time. -/
structure KmsState where
  devices : List Device
  cache : List (String × CacheEntry)
  now : Nat
  uuid : Nat → String
  uuidCtr : Nat
  pubGen : Nat → String
  fpGen : Nat → String
  vaultPriv : String → String

/-- Lookup in the key cache map. -/
def cacheLookup (cache : List (String × CacheEntry)) (k : String) : Option CacheEntry :=
  (cache.find? (fun p => p.1 = k)).map (fun p => p.2)

/-- Map set semantics of the key cache: replace the entry when present,
append otherwise. -/
def cacheSet (cache : List (String × CacheEntry)) (k : String) (v : CacheEntry) :
    List (String × CacheEntry) :=
  if cache.any (fun p => p.1 = k) then
    cache.map (fun p => if p.1 = k then (k, v) else p)
  else cache ++ [(k, v)]

/-- Map delete semantics of the key cache. -/
def cacheEraseKey (cache : List (String × CacheEntry)) (k : String) :
    List (String × CacheEntry) :=
  cache.filter (fun p => !(p.1 = k))

/-- The private getKeyMetadata method: the first stored Device whose
identifier matches, parsed. -/
def getKeyMetadata (st : KmsState) (k : String) : Option ParsedKey :=
  (st.devices.find? (fun d => d.identifierValue = k)).map parseKeyMetadata

/-- The private updateKeyMetadata method.  After loading the current parsed
metadata it builds the updated Device from current.extensions — but
parseKeyMetadata returns no extensions field, so the property access yields
undefined and calling map on it throws a TypeError.  Hence the method fails
with Key not found for an unknown key and with this TypeError for every
existing key; no status update is ever persisted. -/
def updateKeyMetadata (st : KmsState) (k : String) (_newStatus : String) :
    Except JsErr Device :=
  match getKeyMetadata st k with
  | none => .error (.jsError "Key not found")
  | some _ => .error (.typeError "Cannot read properties of undefined (reading map)")

/-- The owner reference built by generateKey: ownerType slash ownerId when
an owner id is supplied and truthy, null otherwise. -/
def ownerRef (ownerId : Option String) (ownerType : String) : Option String :=
  match ownerId with
  | none => none
  | some o => if o = "" then none else some (ownerType ++ "/" ++ o)

/-- Splitting of a character list at a separator, the behavior of the
JavaScript string split method for a one character separator. -/
def splitAux (sep : Char) : List Char → List Char → List String
  | [], acc => [String.mk acc.reverse]
  | c :: r, acc =>
    if c = sep then String.mk acc.reverse :: splitAux sep r []
    else splitAux sep r (c :: acc)

/-- The JavaScript split of a string at one character. -/
def splitChar (s : String) (sep : Char) : List String :=
  splitAux sep s.toList []

/-- The owner reference fields rotateKey passes to generateKey: the part
after the slash as the owner id and the part before it as the owner type,
with the undefined owner type defaulting to Patient inside generateKey. -/
def ownerParse (o : Option String) : Option String × String :=
  (o.bind (fun r => (splitChar r '/').get? 1),
   match o with
   | none => "Patient"
   | some r => (splitChar r '/').headD "Patient")

/-- Result of generateKey: the new key id and public key. -/
structure GenResult where
  keyId : String
  publicKey : String
deriving Repr, DecidableEq

/-- The generateKey method: draws material and a fresh UUID, stores the
Device metadata, and caches the private material for five minutes. -/
def generateKey (st : KmsState) (keyType : String) (ownerId : Option String)
    (ownerType : String) (_keySize : Nat) (rotationPolicy : String) :
    KmsState × GenResult :=
  let keyId := st.uuid st.uuidCtr
  let pub := st.pubGen st.uuidCtr
  let fp := st.fpGen st.uuidCtr
  let policy := getRotationPolicy rotationPolicy keyType
  let d := storeKeyMetadata keyId keyType (ownerRef ownerId ownerType) pub fp policy
    (securityTags keyType)
  ({ st with
      devices := st.devices ++ [d],
      cache := cacheSet st.cache keyId ⟨st.vaultPriv keyId, st.now + 5 * 60 * 1000⟩,
      uuidCtr := st.uuidCtr + 1 },
   ⟨keyId, pub⟩)

/-- The rotateKey method: loads the old key, generates a successor with the
old type, owner and policy name, then calls updateKeyMetadata to retire the
predecessor — which always throws, so the call rejects after the successor
has been created and cached. -/
def rotateKey (st : KmsState) (k : String) : KmsState × Except JsErr GenResult :=
  match getKeyMetadata st k with
  | none => (st, .error (.jsError "Key not found"))
  | some old =>
    let st1gen := generateKey st old.keyType (ownerParse old.owner).1
      (ownerParse old.owner).2 (old.publicKey.length * 8) old.rotationPolicy.name
    match updateKeyMetadata st1gen.1 k "retired" with
    | .error e => (st1gen.1, .error e)
    | .ok _ => (st1gen.1, .ok st1gen.2)

/-- The revokeKey method: after an effect-free metadata read it calls
updateKeyMetadata to mark the key revoked — which always throws, so the
blockchain revocation list, the cache eviction and the audit record are
never reached and the state is unchanged. -/
def revokeKey (st : KmsState) (k : String) (_reason : String) :
    KmsState × Except JsErr Bool :=
  match updateKeyMetadata st k "revoked" with
  | .error e => (st, .error e)
  | .ok _ => ({ st with cache := cacheEraseKey st.cache k }, .ok true)

/-- The cache-miss continuation of getPrivateKey: load the metadata, reject
revoked or retired status, retrieve the material from the vault and cache it
for three minutes. -/
def getPrivateKeyFresh (st : KmsState) (k : String) : KmsState × Except JsErr String :=
  match getKeyMetadata st k with
  | none => (st, .error (.jsError "Key not found"))
  | some meta =>
    if meta.status = "revoked" ∨ meta.status = "retired" then
      (st, .error (.jsError ("Cannot use " ++ meta.status ++ " key")))
    else
      let priv := st.vaultPriv k
      ({ st with cache := cacheSet st.cache k ⟨priv, st.now + 3 * 60 * 1000⟩ },
       .ok priv)

/-- The getPrivateKey method: an unexpired cache entry is returned with no
status or policy check at all; an expired entry is deleted and the call
falls through to the fresh retrieval path. -/
def getPrivateKey (st : KmsState) (k : String) : KmsState × Except JsErr String :=
  match cacheLookup st.cache k with
  | some c =>
    if st.now < c.expiresAt then (st, .ok c.privateKey)
    else getPrivateKeyFresh { st with cache := cacheEraseKey st.cache k } k
  | none => getPrivateKeyFresh st k

end KMS

/-- Fuel driven splitting of a list into consecutive chunks of m + 1
elements; the fuel bounds the number of chunks and is never exhausted when
it starts at the list length. -/
def chunkByF {α : Type} (m : Nat) : Nat → List α → List (List α)
  | _, [] => []
  | 0, l => [l]
  | fuel + 1, c :: r => ((c :: r).take (m + 1)) :: chunkByF m fuel ((c :: r).drop (m + 1))

/-- Splitting a list into consecutive chunks of m + 1 elements, the list
analogue of repeated substring extraction in the private chunkData method
(the JavaScript steps through the string by a positive chunk size). -/
def chunkBy {α : Type} (m : Nat) (l : List α) : List (List α) :=
  chunkByF m l.length l

/-- A rolling hash over a byte list.  Modelled from the spec: the stand-in
for the keyed cryptographic primitives of the Node crypto module, which is
external to the repository; the development relies only on determinism plus
concrete inequalities checked by evaluation. -/
def hashNats (l : List Nat) : Nat :=
  l.foldl (fun a b => (a * 131 + b + 17) % 1000003) 7

namespace Aes

/-- One registry record of the chunked GCM AesService in
src/unnamed/part_016: key metadata stored under the key id, never the key
itself. -/
structure KeyInfo where
  keySize : Nat
  keyType : String
  ownerId : Option String
  quantumSalt : List Nat
  lastUsed : Option Nat
deriving Repr, DecidableEq

/-- State of the AesService: the key registry, the current time, and the
fresh initialization vector stream.  Modelled from the spec: the quantum key
derivation backend and the randomness source are external to the
repository. -/
structure AesState where
  registry : List (String × KeyInfo)
  now : Nat
  ivGen : Nat → List Nat
  ivCtr : Nat

/-- Modelled from the spec: the deterministic key derivation of the quantum
backend — the derived key is a function of the salt and the context, so
encrypt and decrypt with the same key id derive the same key. -/
def deriveKey (salt : List Nat) (context : String) : List Nat :=
  (List.range 32).map (fun i => hashNats (salt ++ [255, i] ++ (context.toList.map Char.toNat)) % 256)

/-- The derivation context string aes-keyType-owner used by the service. -/
def keyContext (info : KeyInfo) : String :=
  "aes-" ++ info.keyType ++ "-" ++ (info.ownerId.getD "system")

/-- The private prepareKeyAndIV method: reject an unknown key id, derive the
key from the stored quantum parameters, record the usage instant, and draw a
fresh 12 byte initialization vector. -/
def prepareKeyAndIV (st : AesState) (keyId : String) :
    AesState × Except JsErr (List Nat × List Nat) :=
  match (st.registry.find? (fun p => p.1 = keyId)).map (fun p => p.2) with
  | none => (st, .error (.jsError "Invalid key ID"))
  | some info =>
    let key := deriveKey info.quantumSalt (keyContext info)
    let iv := st.ivGen st.ivCtr
    ({ st with
        registry := st.registry.map (fun p =>
          if p.1 = keyId then (keyId, { p.2 with lastUsed := some st.now }) else p),
        ivCtr := st.ivCtr + 1 },
     .ok (key, iv))

/-- The private chunkData method over the character list of the data
string, with a positive chunk size. -/
def chunkData (data : String) (chunkSize : Nat) : List (List Char) :=
  chunkBy (chunkSize - 1) data.toList

/-- One encrypted chunk of the envelope: ciphertext bytes, authentication
tag, the initialization vector recorded for the chunk, and the chunk
index. -/
structure GcmChunk where
  data : List Nat
  tag : Nat
  iv : List Nat
  index : Nat
deriving Repr, DecidableEq

/-- The value encrypt would resolve with: a bare chunk when there is exactly
one, otherwise the array of chunks (empty for an empty payload). -/
inductive EncryptResult where
  | single (c : GcmChunk)
  | multi (cs : List GcmChunk)
deriving Repr, DecidableEq

/-- Modelled from the spec: the GCM keystream byte of the Node crypto
module at position i under a key and initialization vector. -/
def keystream (key iv : List Nat) (i : Nat) : Nat :=
  hashNats (key ++ [255] ++ iv ++ [254, i]) % 256

/-- Modelled from the spec: the counter-mode body of AES-GCM — ciphertext
and plaintext are each other under the keystream, byte by byte. -/
def gcmXcrypt (key iv : List Nat) (l : List Nat) : List Nat :=
  (l.zip (List.range l.length)).map (fun p => p.1 ^^^ keystream key iv p.2)

/-- Modelled from the spec: the GCM authentication tag over the key, the
initialization vector, the associated authenticated data and the
ciphertext; decipher.final throws when the presented tag differs from this
value. -/
def gcmTag (key iv aad ct : List Nat) : Nat :=
  hashNats (key ++ [251] ++ iv ++ [252] ++ aad ++ [253] ++ ct)

/-- The associated authenticated data bytes: when context data is supplied,
the JSON of the chunk index merged with the context, modelled as the index
prefixed to the context bytes; without context data no AAD is set. -/
def aadBytes (ctx : Option (List Nat)) (index : Nat) : List Nat :=
  match ctx with
  | none => []
  | some c => index :: c

/-- The encrypt method of the GCM AesService.  The key and the first
initialization vector come from prepareKeyAndIV, where the destructuring
declares both with const.  The loop body encrypts a chunk, pushes it, and
then executes the statement that reassigns the const binding iv to draw a
fresh vector for the next chunk — which throws a TypeError.  So an empty
payload yields an empty chunk array while every payload with at least one
chunk makes encrypt reject after its first iteration. -/
def encrypt (st : AesState) (data : String) (keyId : String) (chunkSizeKB : Nat)
    (_ctx : Option (List Nat)) : AesState × Except JsErr EncryptResult :=
  match prepareKeyAndIV st keyId with
  | (st1, .error e) => (st1, .error e)
  | (st1, .ok _) =>
    match chunkData data (chunkSizeKB * 1024) with
    | [] => (st1, .ok (.multi []))
    | _ :: _ => (st1, .error (.typeError "Assignment to constant variable"))

/-- Decryption of one chunk: decipher.final throws its authentication
failure when the presented tag does not match the tag of the key, the
recorded initialization vector, the associated data and the ciphertext;
otherwise the chunk decrypts to its plaintext bytes. -/
def decryptChunk (key : List Nat) (ctx : Option (List Nat)) (ch : GcmChunk) :
    Except JsErr (List Nat) :=
  if ch.tag = gcmTag key ch.iv (aadBytes ctx ch.index) ch.data
  then .ok (gcmXcrypt key ch.iv ch.data)
  else .error .authFailure

/-- The chunk loop of the decrypt method, concatenating the plaintexts and
propagating the first failure. -/
def decryptChunks (key : List Nat) (ctx : Option (List Nat)) :
    List GcmChunk → Except JsErr (List Nat)
  | [] => .ok []
  | c :: r =>
    match decryptChunk key ctx c with
    | .error e => .error e
    | .ok p => (decryptChunks key ctx r).map (fun q => p ++ q)

/-- The decrypt method of the GCM AesService: derive the key for the key id
and run the chunk loop. -/
def decrypt (st : AesState) (chunks : List GcmChunk) (keyId : String)
    (ctx : Option (List Nat)) : AesState × Except JsErr (List Nat) :=
  match prepareKeyAndIV st keyId with
  | (st1, .error e) => (st1, .error e)
  | (st1, .ok kv) => (st1, decryptChunks kv.1 ctx chunks)

end Aes

namespace Cbc

/-- PKCS7 padding to the 16 byte block size of aes-256-cbc, as applied by
the Node cipher used in src/backend/aesService.js. -/
def pkcs7pad (l : List Nat) : List Nat :=
  let k := 16 - l.length % 16
  l ++ List.replicate k k

/-- PKCS7 unpadding: decipher.final throws bad decrypt unless the last
block ends in k copies of k for some k between 1 and 16. -/
def unpad (l : List Nat) : Except JsErr (List Nat) :=
  match l.getLast? with
  | none => .error .badDecrypt
  | some k =>
    if 1 ≤ k ∧ k ≤ 16 ∧ k ≤ l.length ∧ (l.drop (l.length - k)).all (fun b => b = k)
    then .ok (l.take (l.length - k))
    else .error .badDecrypt

/-- Modelled from the spec: the AES block transform of the Node crypto
module, idealized as the exclusive-or of each block with a key block — an
invertible deterministic transform, which is all the development relies
on.  The key block is the first sixteen bytes of the key. -/
def ksb (key : List Nat) : List Nat := key.take 16

/-- Byte-wise exclusive-or of two blocks. -/
def bxor (a b : List Nat) : List Nat := List.zipWith (fun x y => x ^^^ y) a b

/-- The CBC encryption chain: each ciphertext block is the block transform
of the plaintext block combined with the previous ciphertext block, seeded
with the initialization vector. -/
def cbcEncBlocks (kb prev : List Nat) : List (List Nat) → List (List Nat)
  | [] => []
  | p :: r =>
    let c := bxor (bxor p prev) kb
    c :: cbcEncBlocks kb c r

/-- The encrypt method of the CBC AesService: pad, chain, concatenate.  The
envelope carries only the initialization vector and the ciphertext — no
authentication tag exists in this service. -/
def cbcEncrypt (key iv pt : List Nat) : List Nat :=
  (cbcEncBlocks (ksb key) iv (chunkBy 15 (pkcs7pad pt))).flatten

/-- The CBC decryption chain. -/
def cbcDecBlocks (kb prev : List Nat) : List (List Nat) → List (List Nat)
  | [] => []
  | c :: r => bxor (bxor c kb) prev :: cbcDecBlocks kb c r

/-- The decrypt method of the CBC AesService: chain, concatenate, unpad.
The only failure it can raise is the padding check of decipher.final; no
tag is ever verified. -/
def cbcDecrypt (key iv ct : List Nat) : Except JsErr (List Nat) :=
  unpad ((cbcDecBlocks (ksb key) iv (chunkBy 15 ct)).flatten)

/-- Flipping one bit of one byte of a byte list. -/
def flipBit (l : List Nat) (i bit : Nat) : List Nat :=
  l.set i ((l.getD i 0) ^^^ (1 <<< bit))

end Cbc

namespace KMS

/-- A concrete service state: no stored keys, empty cache, deterministic
stand-ins for the external streams. -/
def st0 : KmsState :=
  { devices := [], cache := [], now := 0,
    uuid := fun n => "key-" ++ toString n, uuidCtr := 0,
    pubGen := fun n => "PUB" ++ toString n,
    fpGen := fun n => "FP" ++ toString n,
    vaultPriv := fun k => "PRIV-" ++ k }

/-- The state after generating one data-encryption key for patient 42: the
fresh key id is key-0 and its private material is cached for five minutes. -/
def stGen : KmsState :=
  (generateKey st0 "data-encryption" (some "42") "Patient" 256 "default").1

/-- The parsed metadata of the stored fixture key. -/
def pk0 : ParsedKey :=
  parseKeyMetadata (storeKeyMetadata "key-0" "data-encryption" (some "Patient/42")
    "PUB0" "FP0" ⟨"default", some 90, some 1000⟩ ["CONFIDENTIAL"])

/-- The state left by the failing rotation attempt on key-0. -/
def stRot : KmsState := (rotateKey stGen "key-0").1

/-- The rotated state ten minutes later, after every cache TTL expired. -/
def stLater : KmsState := { stRot with now := 1000000 }

end KMS

namespace Aes

/-- A registry record for the fixture key. -/
def akInfo : KeyInfo :=
  { keySize := 256, keyType := "patient-data", ownerId := some "42",
    quantumSalt := [1, 2, 3, 4], lastUsed := none }

/-- A concrete AesService state holding one key. -/
def aesSt0 : AesState :=
  { registry := [("ak-1", akInfo)], now := 0,
    ivGen := fun n => List.replicate 12 (n % 256), ivCtr := 0 }

/-- The derived fixture key. -/
def gcmKeyC : List Nat := deriveKey akInfo.quantumSalt (keyContext akInfo)

/-- A fixture initialization vector. -/
def gcmIvC : List Nat := List.replicate 12 7

/-- Fixture plaintext bytes. -/
def gcmPtC : List Nat := [72, 101, 97, 108, 116, 104]

/-- The fixture ciphertext. -/
def gcmCtC : List Nat := gcmXcrypt gcmKeyC gcmIvC gcmPtC

/-- A well formed fixture chunk whose tag authenticates its data. -/
def gcmChunkC : GcmChunk :=
  { data := gcmCtC, tag := gcmTag gcmKeyC gcmIvC (aadBytes none 0) gcmCtC,
    iv := gcmIvC, index := 0 }

end Aes

namespace Cbc

/-- A fixture 32 byte key. -/
def cbcKeyC : List Nat := (List.range 32).map (fun i => (i * 7 + 3) % 256)

/-- A fixture initialization vector. -/
def cbcIvC : List Nat := (List.range 16).map (fun i => (i * 11 + 5) % 256)

/-- A fixture 20 byte plaintext. -/
def cbcPtC : List Nat := (List.range 20).map (fun i => (i * 13 + 1) % 256)

/-- The fixture ciphertext body. -/
def cbcCtC : List Nat := cbcEncrypt cbcKeyC cbcIvC cbcPtC

/-- The fixture ciphertext with one bit of its first block flipped. -/
def cbcTampered : List Nat := flipBit cbcCtC 0 0

/-- The corrupted plaintext the tampered ciphertext decrypts to: the flip
reaches the first byte of each of the two plaintext blocks. -/
def cbcPtX : List Nat := flipBit (flipBit cbcPtC 0 0) 16 0

end Cbc

namespace AuditLog

/-- A stored unverified entry more than ten minutes old. -/
def oldEntry : LogEntry :=
  { id := "aaaa1111-0000-4000-8000-000000000001", timestamp := 0,
    userId := "dr.smith", action := .READ, resourceType := some "Patient",
    resourceId := some "p-42", ipAddress := none, userAgent := none,
    queryParams := none, dataHash := none, blockchainTxId := none,
    verified := false }

/-- An environment with blockchain audit enabled and the anchor unreachable. -/
def envUnreach : AnchorEnv :=
  { blockchainAudit := true, now := 700000, anchor := none, confirm := none }

/-- A ledger holding only the old unverified entry. -/
def dbOld : AuditDb := { rows := [oldEntry], batches := [] }

/-- A metadata argument with no optional fields. -/
def emptyMeta : Metadata := ⟨none, none, none, none, none, none⟩

/-- A metadata argument whose query carries a social security number under
the PHI indicator key ssn. -/
def metaPHI : Metadata :=
  { resourceType := some "Patient", resourceId := some "p-42", ip := none,
    userAgent := none, query := some [("ssn", "123-45-6789")], data := none }

/-- An unanchored entry of the verification fixtures. -/
def eUnanch : LogEntry :=
  { id := "e1", timestamp := 10, userId := "dr.smith", action := .READ,
    resourceType := some "Patient", resourceId := some "p-1", ipAddress := none,
    userAgent := none, queryParams := none, dataHash := none,
    blockchainTxId := none, verified := false }

/-- An anchored entry of the verification fixtures. -/
def eAnch : LogEntry :=
  { id := "e2", timestamp := 20, userId := "dr.smith", action := .READ,
    resourceType := some "Patient", resourceId := some "p-1", ipAddress := none,
    userAgent := none, queryParams := none, dataHash := none,
    blockchainTxId := some "tx9", verified := true }

/-- A ledger with one unanchored and one anchored entry. -/
def dbVer : AuditDb := { rows := [eUnanch, eAnch], batches := [] }

/-- An environment whose anchor confirmation always answers false. -/
def envConfirmFalse : AnchorEnv :=
  { blockchainAudit := true, now := 0, anchor := none,
    confirm := some (fun _ _ => false) }

lemma mem_insertTs {a e : LogEntry} {l : List LogEntry} :
    a ∈ insertTs e l ↔ a = e ∨ a ∈ l := by
  induction l with
  | nil => simp [insertTs]
  | cons f r ih =>
    simp only [insertTs]
    split
    · simp
    · simp [ih]; tauto

lemma mem_sortByTs {a : LogEntry} {l : List LogEntry} :
    a ∈ sortByTs l ↔ a ∈ l := by
  induction l with
  | nil => simp [sortByTs]
  | cons f r ih =>
    simp only [sortByTs, List.foldr] at *
    rw [mem_insertTs, ih]
    simp

lemma merkleRoot_ok_some_length {l : List String} {r : String}
    (h : calculateMerkleRoot l = Except.ok (some r)) : l.length = 1 := by
  rcases l with _ | ⟨a, _ | ⟨b, t⟩⟩ <;> simp [calculateMerkleRoot] at h ⊢

-- A singleton unverified batch can only be the entry just created, which is
-- unverified with age zero.
lemma singleton_batch_is_fresh (db : AuditDb) (e : LogEntry)
    (he : e ∈ db.rows) (hv : e.verified = false)
    (hlen1 : (getUnverifiedBatch db).length = 1) :
    getUnverifiedBatch db = [e] := by
  have heS : e ∈ sortByTs (db.rows.filter (fun r => !r.verified)) := by
    rw [mem_sortByTs]
    exact List.mem_filter.mpr ⟨he, by simp [hv]⟩
  have hlen : (sortByTs (db.rows.filter (fun r => !r.verified))).length = 1 := by
    unfold getUnverifiedBatch at hlen1
    rw [List.length_take] at hlen1
    omega
  have h2 : getUnverifiedBatch db = sortByTs (db.rows.filter (fun r => !r.verified)) := by
    unfold getUnverifiedBatch
    exact List.take_of_length_le (by omega)
  rcases List.length_eq_one.mp hlen with ⟨b0, hS⟩
  rw [hS] at heS
  simp only [List.mem_singleton] at heS
  rw [h2, hS, heS]

lemma anchor_ok_batches (env : AnchorEnv) (db : AuditDb) (e : LogEntry)
    (he : e ∈ db.rows) (hv : e.verified = false) (ht : e.timestamp = env.now) :
    ∀ {d : AuditDb}, anchorToBlockchain env db = Except.ok d → d.batches = db.batches := by
  intro d h
  unfold anchorToBlockchain at h
  by_cases hba : env.blockchainAudit = true
  · simp only [hba, if_true] at h
    rcases hb : getUnverifiedBatch db with _ | ⟨b0, _ | ⟨b1, rest⟩⟩
    · simp [hb, anchorTrigger] at h
      rw [h]
    · -- a singleton unverified batch is the fresh entry, so the trigger is off
      have hbe : getUnverifiedBatch db = [e] :=
        singleton_batch_is_fresh db e he hv (by rw [hb]; rfl)
      rw [hbe] at h
      have htr : anchorTrigger env [e] = false := by
        simp [anchorTrigger, ht]
      simp only [htr, Bool.false_eq_true, if_false] at h
      injection h with h2; rw [← h2]
    · -- two or more leaves make the Merkle computation throw
      rw [hb] at h
      rcases htr : anchorTrigger env (b0 :: b1 :: rest) with _ | _
      · simp only [htr, Bool.false_eq_true, if_false] at h
        injection h with h2; rw [← h2]
      · simp only [htr, if_true] at h
        simp [calculateMerkleRoot] at h
  · simp only [Bool.not_eq_true] at hba
    simp [hba] at h
    rw [h]

/-- Claim C1: the batcher of AuditLog.js can never form a batch.  Whenever
the anchoring trigger fires, the unverified batch holds at least two entries
— the just created entry is always unverified and has age zero, so the ten
minute trigger needs a second, older entry and the five entry threshold
needs five — and calculateMerkleRoot then throws the TypeError caused by
reassigning its const hashes binding.  Hence a log call never extends the
set of formed batches, no entry is ever anchored, and the quantified claim
about recomputing a stored Merkle root from stored contentHash leaves has
an empty range; the leaves it would use are moreover the hashEntry
re-derivations, not the stored dataHash values. -/
theorem merkle_batcher_never_forms_batch (env : AnchorEnv) (db : AuditDb)
    (uuid userId : String) (action : Action) (meta : Metadata) :
    ((log env db uuid userId action meta).1).batches = db.batches := by
  unfold log
  split
  · rfl
  · have he : mkRow env.now uuid userId action meta ∈
        ({ db with rows := db.rows ++ [mkRow env.now uuid userId action meta] } : AuditDb).rows := by
      simp
    rcases ha : anchorToBlockchain env
        { db with rows := db.rows ++ [mkRow env.now uuid userId action meta] } with err | d
    · simp [ha]
    · have hbat : d.batches =
          ({ db with rows := db.rows ++ [mkRow env.now uuid userId action meta] } : AuditDb).batches :=
        anchor_ok_batches env _ (mkRow env.now uuid userId action meta) he rfl rfl ha
      simp [ha, hbat]

/-- Claim C7: with blockchain audit enabled and an unverified entry more
than ten minutes old on file, the next log call inserts its row and then
rejects with the TypeError thrown inside the awaited afterCreate hook while
computing the Merkle root of the two entry batch, even though the anchor
being unreachable never comes into play; the new row is nevertheless
persisted, unverified.  So an anchoring cycle failure is not absorbed: it
propagates to the caller of log. -/
theorem log_rejects_on_anchor_cycle (env : AnchorEnv) (db : AuditDb)
    (e0 : LogEntry) (uuid userId : String) (action : Action) (meta : Metadata)
    (hba : env.blockchainAudit = true)
    (hrows : db.rows = [e0])
    (hv : e0.verified = false)
    (ht : e0.timestamp + 600001 ≤ env.now)
    (_hanchor : env.anchor = none)
    (hid : e0.id ≠ uuid) :
    (log env db uuid userId action meta).2 =
      .error (.typeError "Assignment to constant variable") ∧
    ∃ r ∈ (log env db uuid userId action meta).1.rows,
      r.id = uuid ∧ r.verified = false := by
  have hpk : db.rows.any (fun r => r.id = uuid) = false := by
    simp [hrows]
    exact fun h => absurd h hid
  have hbatch : getUnverifiedBatch
      { db with rows := db.rows ++ [mkRow env.now uuid userId action meta] } =
      [e0, mkRow env.now uuid userId action meta] := by
    unfold getUnverifiedBatch
    rw [hrows]
    have hts : e0.timestamp ≤ (mkRow env.now uuid userId action meta).timestamp := by
      simp [mkRow]; omega
    simp [sortByTs, insertTs, hv, mkRow, List.filter]
    simp [mkRow] at hts
    simp [hts]
  have hanch : anchorToBlockchain env
      { db with rows := db.rows ++ [mkRow env.now uuid userId action meta] } =
      .error (.typeError "Assignment to constant variable") := by
    have htrig : 600000 < env.now - e0.timestamp := by omega
    simp [anchorToBlockchain, anchorTrigger, hba, hbatch, htrig, calculateMerkleRoot]
  refine ⟨?_, ?_⟩
  · unfold log
    rw [hpk]
    simp only [Bool.false_eq_true, if_false]
    rw [hanch]
  · unfold log
    rw [hpk]
    simp only [Bool.false_eq_true, if_false]
    rw [hanch]
    exact ⟨mkRow env.now uuid userId action meta, by simp [hrows], rfl, rfl⟩


/-- Witness for claim C7 at concrete inputs: the log call rejects with the
TypeError of the anchoring cycle while its row is persisted. -/
theorem log_rejects_on_anchor_cycle_witness :
    (log envUnreach dbOld "bbbb2222-0000-4000-8000-000000000002" "dr.jones"
        .WRITE emptyMeta).2 =
      .error (.typeError "Assignment to constant variable") ∧
    ∃ r ∈ (log envUnreach dbOld "bbbb2222-0000-4000-8000-000000000002" "dr.jones"
        .WRITE emptyMeta).1.rows,
      r.id = "bbbb2222-0000-4000-8000-000000000002" ∧ r.verified = false :=
  log_rejects_on_anchor_cycle envUnreach dbOld oldEntry
    "bbbb2222-0000-4000-8000-000000000002" "dr.jones" .WRITE emptyMeta
    rfl rfl rfl (by decide) rfl (by decide)

lemma markVerified_ids (db : AuditDb) (ids : List String) (root tx : String) :
    (markVerified db ids root tx).rows.map (fun r => r.id) =
      db.rows.map (fun r => r.id) := by
  simp only [markVerified, List.map_map]
  apply List.map_congr_left
  intro e _
  simp only [Function.comp]
  split <;> rfl

lemma anchor_ok_rows_shape (env : AnchorEnv) (db : AuditDb) :
    ∀ {d : AuditDb}, anchorToBlockchain env db = Except.ok d →
      d = db ∨ ∃ ids root tx, d = markVerified db ids root tx := by
  intro d h
  unfold anchorToBlockchain at h
  split at h
  · split at h
    · split at h
      · exact absurd h (by simp)
      · injection h with h2; exact Or.inl h2.symm
      · split at h
        · exact absurd h (by simp)
        · injection h with h2
          exact Or.inr ⟨_, _, _, h2.symm⟩
    · injection h with h2; exact Or.inl h2.symm
  · injection h with h2; exact Or.inl h2.symm

lemma log_fst_rows_ids (env : AnchorEnv) (db : AuditDb) (uuid userId : String)
    (action : Action) (meta : Metadata)
    (hpk : db.rows.any (fun r => r.id = uuid) = false) :
    ((log env db uuid userId action meta).1).rows.map (fun r => r.id) =
      db.rows.map (fun r => r.id) ++ [uuid] := by
  unfold log
  rw [hpk]
  simp only [Bool.false_eq_true, if_false]
  rcases ha : anchorToBlockchain env
      { db with rows := db.rows ++ [mkRow env.now uuid userId action meta] } with err | d
  · simp [mkRow]
  · rcases anchor_ok_rows_shape env _ ha with h2 | ⟨ids, root, tx, h2⟩
    · subst h2; simp [mkRow]
    · subst h2
      simp only [markVerified_ids]
      simp [mkRow]

/-- Claim C8 counterexample: entry ids come from the UUIDv4 generator, so a
run in which the generator yields a lexicographically large UUID first and a
small one second produces ids that are not increasing in creation order;
the strict monotonicity asserted by the claim fails on this run. -/
theorem audit_ids_not_monotonic_counterexample :
    ((log { blockchainAudit := false, now := 1, anchor := none, confirm := none }
        ((log { blockchainAudit := false, now := 0, anchor := none, confirm := none }
          ⟨[], []⟩ "ffffffff-ffff-4fff-bfff-ffffffffffff" "dr.smith" .READ emptyMeta).1)
        "00000000-0000-4000-8000-000000000000" "dr.smith" .READ emptyMeta).1).rows.map
      (fun r => r.id) =
      ["ffffffff-ffff-4fff-bfff-ffffffffffff", "00000000-0000-4000-8000-000000000000"] ∧
    ¬ ("ffffffff-ffff-4fff-bfff-ffffffffffff" : String) <
        "00000000-0000-4000-8000-000000000000" := by
  refine ⟨rfl, ?_⟩
  rw [String.lt_iff_toList_lt]
  decide

/-- Claim C8 as amended: ids of persisted entries stay pairwise distinct —
the primary key constraint rejects a duplicate id, and anchoring updates
never change an id — but they are random UUIDs with no monotonicity, and
the code orders entries by timestamp, not id. -/
theorem audit_ids_unique (env : AnchorEnv) (db : AuditDb) (uuid userId : String)
    (action : Action) (meta : Metadata)
    (h : (db.rows.map (fun r => r.id)).Nodup) :
    (((log env db uuid userId action meta).1).rows.map (fun r => r.id)).Nodup := by
  rcases hpk : db.rows.any (fun r => r.id = uuid) with _ | _
  · rw [log_fst_rows_ids env db uuid userId action meta hpk]
    rw [List.nodup_append]
    refine ⟨h, List.nodup_singleton uuid, ?_⟩
    intro a ha hb
    simp only [List.mem_singleton] at hb
    rcases List.mem_map.mp ha with ⟨r, hr, hrid⟩
    have hany : db.rows.any (fun r => r.id = uuid) = true := by
      rw [List.any_eq_true]
      exact ⟨r, hr, by simp [hrid, hb]⟩
    rw [hpk] at hany
    cases hany
  · unfold log
    rw [if_pos hpk]
    exact h

/-- Witness for the amended claim C8 at concrete inputs. -/
theorem audit_ids_unique_witness :
    (((log envUnreach dbOld "bbbb2222-0000-4000-8000-000000000002" "dr.jones"
        .WRITE emptyMeta).1).rows.map (fun r => r.id)).Nodup :=
  audit_ids_unique envUnreach dbOld "bbbb2222-0000-4000-8000-000000000002"
    "dr.jones" .WRITE emptyMeta (by decide)


/-- Claim C5 counterexample: the log method of AuditLog.js applies no
masking — the persisted entry stores the query parameters verbatim, so the
social security number appears unmasked in the stored row even though its
key ssn is a PHI indicator (the isPHIColumn list of the repository itself). -/
theorem log_stores_unmasked_phi_counterexample :
    ((log envUnreach ⟨[], []⟩ "cccc3333-0000-4000-8000-000000000003" "dr.smith"
        .READ metaPHI).1).rows.map (fun r => r.queryParams) =
      [some [("ssn", "123-45-6789")]] ∧
    "ssn" ∈ phiColumns := by
  exact ⟨rfl, by decide⟩

lemma markVerified_row_fields (db : AuditDb) (ids : List String) (root tx : String)
    (e : LogEntry) (he : e ∈ db.rows) :
    ∃ r ∈ (markVerified db ids root tx).rows,
      r.id = e.id ∧ r.queryParams = e.queryParams ∧ r.ipAddress = e.ipAddress ∧
      r.userAgent = e.userAgent ∧ r.dataHash = e.dataHash := by
  refine ⟨_, List.mem_map_of_mem _ he, ?_⟩
  split <;> simp

/-- Claim C5 as amended: the log method persists the metadata derived
fields verbatim — queryParams, ipAddress and userAgent are stored exactly
as supplied, with no PHI indicator masking of any kind; only the data field
is protected, by storing its hash instead of the value. -/
theorem log_persists_metadata_verbatim (env : AnchorEnv) (db : AuditDb)
    (uuid userId : String) (action : Action) (meta : Metadata)
    (hpk : db.rows.any (fun r => r.id = uuid) = false) :
    ∃ r ∈ ((log env db uuid userId action meta).1).rows,
      r.id = uuid ∧ r.queryParams = meta.query ∧ r.ipAddress = meta.ip ∧
      r.userAgent = meta.userAgent ∧ r.dataHash = meta.data.map hashData := by
  unfold log
  rw [hpk]
  simp only [Bool.false_eq_true, if_false]
  have he : mkRow env.now uuid userId action meta ∈
      ({ db with rows := db.rows ++ [mkRow env.now uuid userId action meta] } : AuditDb).rows := by
    simp
  rcases ha : anchorToBlockchain env
      { db with rows := db.rows ++ [mkRow env.now uuid userId action meta] } with err | d
  · exact ⟨mkRow env.now uuid userId action meta, by simp, rfl, rfl, rfl, rfl, rfl⟩
  · rcases anchor_ok_rows_shape env _ ha with h2 | ⟨ids, root, tx, h2⟩
    · subst h2
      exact ⟨mkRow env.now uuid userId action meta, he, rfl, rfl, rfl, rfl, rfl⟩
    · subst h2
      rcases markVerified_row_fields _ ids root tx _ he with ⟨r, hr, h1, h2, h3, h4, h5⟩
      exact ⟨r, hr, h1, h2, h3, h4, h5⟩

/-- Witness for the amended claim C5 at concrete inputs. -/
theorem log_persists_metadata_verbatim_witness :
    ∃ r ∈ ((log envUnreach ⟨[], []⟩ "cccc3333-0000-4000-8000-000000000003"
        "dr.smith" .READ metaPHI).1).rows,
      r.id = "cccc3333-0000-4000-8000-000000000003" ∧
      r.queryParams = metaPHI.query ∧ r.ipAddress = metaPHI.ip ∧
      r.userAgent = metaPHI.userAgent ∧ r.dataHash = metaPHI.data.map hashData :=
  log_persists_metadata_verbatim envUnreach ⟨[], []⟩
    "cccc3333-0000-4000-8000-000000000003" "dr.smith" .READ metaPHI (by decide)


/-- Claim C9 counterexample: verifyEntry answers the same value, ok false,
both for the entry that was never anchored and for the anchored entry whose
hash the anchor refuses to confirm — the result conflates not yet anchored
with anchor integrity failed, contrary to the tristate asserted by the
claim. -/
theorem verify_conflation_counterexample :
    verifyEntry envConfirmFalse dbVer "e1" = .ok false ∧
    verifyEntry envConfirmFalse dbVer "e2" = .ok false ∧
    (dbVer.rows.find? (fun r => r.id = "e1")).map (fun r => r.blockchainTxId) =
      some none ∧
    (dbVer.rows.find? (fun r => r.id = "e2")).map (fun r => r.blockchainTxId) =
      some (some "tx9") := by
  exact ⟨rfl, rfl, rfl, rfl⟩

/-- Claim C9 as amended: verifyEntry fails with the not found error exactly
when no entry has the id; answers false when the entry is unanchored; fails
with the anchor unavailability error when the entry is anchored and the
anchor is unreachable; and otherwise answers the anchor confirmation of the
re-derived entry hash — so a false answer does not distinguish an
unanchored entry from a failed integrity confirmation. -/
theorem verifyEntry_tristate :
    (∀ env db i, db.rows.find? (fun r => r.id = i) = none ↔
      verifyEntry env db i = .error (.jsError "Entry not found")) ∧
    (∀ env db i e, db.rows.find? (fun r => r.id = i) = some e →
      e.blockchainTxId = none → verifyEntry env db i = .ok false) ∧
    (∀ env db i e tx, db.rows.find? (fun r => r.id = i) = some e →
      e.blockchainTxId = some tx → env.confirm = none →
      verifyEntry env db i = .error .anchorUnavailable) ∧
    (∀ env db i e tx f, db.rows.find? (fun r => r.id = i) = some e →
      e.blockchainTxId = some tx → env.confirm = some f →
      verifyEntry env db i = .ok (f tx (hashEntry e))) := by
  refine ⟨?_, ?_, ?_, ?_⟩
  · intro env db i
    constructor
    · intro h
      simp only [verifyEntry, h]
    · intro h
      rcases hf : db.rows.find? (fun r => r.id = i) with _ | e
      · exact hf
      · exfalso
        simp only [verifyEntry, hf] at h
        rcases htx : e.blockchainTxId with _ | tx
        · simp only [htx] at h
          cases h
        · simp only [htx] at h
          rcases hc : env.confirm with _ | f
          · simp only [hc] at h
            simp at h
          · simp only [hc] at h
            cases h
  · intro env db i e hf htx
    simp only [verifyEntry, hf, htx]
  · intro env db i e tx hf htx hc
    simp only [verifyEntry, hf, htx, hc]
  · intro env db i e tx f hf htx hc
    simp only [verifyEntry, hf, htx, hc]

/-- Witness for the amended claim C9 at concrete inputs: all four behaviors
observed on the fixtures. -/
theorem verifyEntry_tristate_witness :
    verifyEntry envUnreach dbVer "missing" = .error (.jsError "Entry not found") ∧
    verifyEntry envConfirmFalse dbVer "e1" = .ok false ∧
    verifyEntry envUnreach dbVer "e2" = .error .anchorUnavailable ∧
    verifyEntry envConfirmFalse dbVer "e2" = .ok false := by
  refine ⟨(verifyEntry_tristate.1 envUnreach dbVer "missing").mp rfl,
    verifyEntry_tristate.2.1 envConfirmFalse dbVer "e1" eUnanch rfl rfl,
    verifyEntry_tristate.2.2.1 envUnreach dbVer "e2" eAnch "tx9" rfl rfl rfl,
    verifyEntry_tristate.2.2.2 envConfirmFalse dbVer "e2" eAnch "tx9"
      (fun _ _ => false) rfl rfl rfl⟩

end AuditLog

namespace KMS

lemma find?_pairs_append (cache : List (String × CacheEntry)) (k k2 : String)
    (v : CacheEntry) (h : k2 ≠ k) :
    ((cache ++ [(k2, v)]).find? (fun p => p.1 = k)) =
      cache.find? (fun p => p.1 = k) := by
  induction cache with
  | nil => simp [List.find?, h]
  | cons p r ih =>
    by_cases hp : p.1 = k
    · rw [List.cons_append, List.find?_cons_of_pos _ (by simp [hp]),
        List.find?_cons_of_pos _ (by simp [hp])]
    · rw [List.cons_append, List.find?_cons_of_neg _ (by simp [hp]),
        List.find?_cons_of_neg _ (by simp [hp])]
      exact ih

lemma find?_pairs_map_set (cache : List (String × CacheEntry)) (k k2 : String)
    (v : CacheEntry) (h : k2 ≠ k) :
    ((cache.map (fun p => if p.1 = k2 then (k2, v) else p)).find?
        (fun p => p.1 = k)) =
      cache.find? (fun p => p.1 = k) := by
  induction cache with
  | nil => rfl
  | cons p r ih =>
    simp only [List.map_cons]
    by_cases hp : p.1 = k2
    · rw [if_pos hp]
      rw [List.find?_cons_of_neg _ (by simp [h]),
        List.find?_cons_of_neg _ (by simp [hp, h])]
      exact ih
    · rw [if_neg hp]
      by_cases hk : p.1 = k
      · rw [List.find?_cons_of_pos _ (by simp [hk]),
          List.find?_cons_of_pos _ (by simp [hk])]
      · rw [List.find?_cons_of_neg _ (by simp [hk]),
          List.find?_cons_of_neg _ (by simp [hk])]
        exact ih

lemma cacheLookup_set_ne (cache : List (String × CacheEntry)) (k k2 : String)
    (v : CacheEntry) (h : k2 ≠ k) :
    cacheLookup (cacheSet cache k2 v) k = cacheLookup cache k := by
  unfold cacheSet cacheLookup
  split
  · rw [find?_pairs_map_set cache k k2 v h]
  · rw [find?_pairs_append cache k k2 v h]

lemma find?_append_some {α : Type} (l1 l2 : List α) (p : α → Bool) {x : α}
    (h : l1.find? p = some x) : (l1 ++ l2).find? p = some x := by
  induction l1 with
  | nil => cases h
  | cons a r ih =>
    rcases ha : p a with _ | _
    · rw [List.find?_cons_of_neg _ (by simp [ha])] at h
      rw [List.cons_append, List.find?_cons_of_neg _ (by simp [ha])]
      exact ih h
    · rw [List.find?_cons_of_pos _ ha] at h
      rw [List.cons_append, List.find?_cons_of_pos _ ha]
      exact h

lemma getKeyMetadata_generate (st : KmsState) (k : String) (old : ParsedKey)
    (hm : getKeyMetadata st k = some old)
    (keyType : String) (ownerId : Option String) (ownerType : String)
    (keySize : Nat) (rotationPolicy : String) :
    getKeyMetadata (generateKey st keyType ownerId ownerType keySize rotationPolicy).1 k
      = some old := by
  unfold getKeyMetadata at hm ⊢
  rcases hfind : st.devices.find? (fun d => d.identifierValue = k) with _ | dev
  · rw [hfind] at hm; cases hm
  · rw [hfind] at hm
    have : (generateKey st keyType ownerId ownerType keySize rotationPolicy).1.devices =
        st.devices ++ [storeKeyMetadata (st.uuid st.uuidCtr) keyType
          (ownerRef ownerId ownerType) (st.pubGen st.uuidCtr) (st.fpGen st.uuidCtr)
          (getRotationPolicy rotationPolicy keyType) (securityTags keyType)] := rfl
    rw [this, find?_append_some _ _ _ hfind]
    exact hm

/-- Claim C2: revokeKey never completes.  For every existing key the call
throws the TypeError raised inside updateKeyMetadata — parseKeyMetadata
returns no extensions field, so building the updated resource dereferences
undefined — before the revoked status is written, before the blockchain
revocation and before the cache eviction.  The state is unchanged, so a
subsequent getPrivateKey behaves exactly as if no revocation had been
attempted: it keeps returning the key material instead of failing with a
revocation error. -/
theorem revokeKey_always_throws (st : KmsState) (k reason : String)
    (hs : (getKeyMetadata st k).isSome = true) :
    revokeKey st k reason =
      (st, .error (.typeError "Cannot read properties of undefined (reading map)")) ∧
    getPrivateKey (revokeKey st k reason).1 k = getPrivateKey st k := by
  rcases hm : getKeyMetadata st k with _ | pk
  · rw [hm] at hs; cases hs
  · have h1 : revokeKey st k reason =
        (st, .error (.typeError "Cannot read properties of undefined (reading map)")) := by
      unfold revokeKey updateKeyMetadata
      rw [hm]
    exact ⟨h1, by rw [h1]⟩

/-- Witness for claim C2 at concrete inputs: the revocation attempt throws,
leaves the state unchanged, and the key material is still served. -/
theorem revokeKey_always_throws_witness :
    revokeKey stGen "key-0" "security-incident" =
      (stGen, .error (.typeError "Cannot read properties of undefined (reading map)")) ∧
    getPrivateKey (revokeKey stGen "key-0" "security-incident").1 "key-0" =
      getPrivateKey stGen "key-0" ∧
    (getPrivateKey stGen "key-0").2 = .ok "PRIV-key-0" := by
  have h := revokeKey_always_throws stGen "key-0" "security-incident" rfl
  exact ⟨h.1, h.2, rfl⟩

/-- Claim C6 counterexample: rotating the fixture key does not return a new
key record — it throws the TypeError of updateKeyMetadata — and afterwards
the predecessor still parses with status active, not deprecated. -/
theorem rotateKey_counterexample :
    (rotateKey stGen "key-0").2 =
      .error (.typeError "Cannot read properties of undefined (reading map)") ∧
    (getKeyMetadata stRot "key-0").map (fun pk => pk.status) = some "active" := by
  exact ⟨rfl, rfl⟩

/-- Claim C6 as amended: rotateKey on an existing key first creates and
stores a successor whose type, owner reference and policy name are derived
from the predecessor, then throws the TypeError of updateKeyMetadata before
any status change or successor link is persisted; the predecessor metadata
is left exactly as before, so it still parses as active and getPrivateKey
keeps succeeding on it. -/
theorem rotateKey_throws_after_successor (st : KmsState) (k : String)
    (old : ParsedKey) (hm : getKeyMetadata st k = some old) :
    (rotateKey st k).2 =
      .error (.typeError "Cannot read properties of undefined (reading map)") ∧
    (rotateKey st k).1.devices = st.devices ++
      [storeKeyMetadata (st.uuid st.uuidCtr) old.keyType
        (ownerRef (ownerParse old.owner).1 (ownerParse old.owner).2)
        (st.pubGen st.uuidCtr) (st.fpGen st.uuidCtr)
        (getRotationPolicy old.rotationPolicy.name old.keyType)
        (securityTags old.keyType)] ∧
    getKeyMetadata (rotateKey st k).1 k = some old := by
  have hm1 : getKeyMetadata (generateKey st old.keyType (ownerParse old.owner).1
      (ownerParse old.owner).2 (old.publicKey.length * 8) old.rotationPolicy.name).1 k
      = some old :=
    getKeyMetadata_generate st k old hm _ _ _ _ _
  have hup : updateKeyMetadata (generateKey st old.keyType (ownerParse old.owner).1
      (ownerParse old.owner).2 (old.publicKey.length * 8) old.rotationPolicy.name).1
      k "retired" =
      .error (.typeError "Cannot read properties of undefined (reading map)") := by
    unfold updateKeyMetadata
    rw [hm1]
  have hrot : rotateKey st k =
      ((generateKey st old.keyType (ownerParse old.owner).1 (ownerParse old.owner).2
        (old.publicKey.length * 8) old.rotationPolicy.name).1,
       .error (.typeError "Cannot read properties of undefined (reading map)")) := by
    unfold rotateKey
    simp only [hm]
    rw [hup]
  refine ⟨by rw [hrot], by rw [hrot]; rfl, by rw [hrot]; exact hm1⟩

/-- Witness for the amended claim C6 at concrete inputs. -/
theorem rotateKey_throws_after_successor_witness :
    (rotateKey stGen "key-0").2 =
      .error (.typeError "Cannot read properties of undefined (reading map)") ∧
    (rotateKey stGen "key-0").1.devices = stGen.devices ++
      [storeKeyMetadata (stGen.uuid stGen.uuidCtr) pk0.keyType
        (ownerRef (ownerParse pk0.owner).1 (ownerParse pk0.owner).2)
        (stGen.pubGen stGen.uuidCtr) (stGen.fpGen stGen.uuidCtr)
        (getRotationPolicy pk0.rotationPolicy.name pk0.keyType)
        (securityTags pk0.keyType)] ∧
    getKeyMetadata (rotateKey stGen "key-0").1 "key-0" = some pk0 :=
  rotateKey_throws_after_successor stGen "key-0" pk0 rfl

/-- Claim C10 counterexample: after the rotation attempt on key-0 and well
past every cache TTL, the cached entry has expired — yet getPrivateKey still
succeeds, because the rotation threw before persisting any status and the
stored record still parses as active.  The status based rejection the claim
predicts at cache expiry never takes effect. -/
theorem cache_hit_after_rotation_counterexample :
    (cacheLookup stLater.cache "key-0").map (fun c => c.expiresAt) = some 300000 ∧
    ¬ stLater.now < 300000 ∧
    (getPrivateKey stLater "key-0").2 = .ok "PRIV-key-0" := by
  exact ⟨rfl, by decide, rfl⟩

/-- Claim C10 as amended: a cache hit returns the cached material with no
status or policy check of any kind; rotateKey never evicts the predecessor
cache entry; every key stored through storeKeyMetadata parses with status
active since no status item is ever written; and after the cache entry
expires getPrivateKey still succeeds through the fresh retrieval path
whenever the stored record parses active — which it always does — so no
status based rejection ever takes effect, before or after expiry. -/
theorem getPrivateKey_cache_rotation_behavior :
    (∀ st k c, cacheLookup st.cache k = some c → st.now < c.expiresAt →
      getPrivateKey st k = (st, .ok c.privateKey)) ∧
    (∀ st k old, getKeyMetadata st k = some old → st.uuid st.uuidCtr ≠ k →
      cacheLookup (rotateKey st k).1.cache k = cacheLookup st.cache k) ∧
    (∀ keyId keyType owner pub fp policy tags,
      (parseKeyMetadata (storeKeyMetadata keyId keyType owner pub fp policy tags)).status
        = "active") ∧
    (∀ st k c old, cacheLookup st.cache k = some c → ¬ st.now < c.expiresAt →
      getKeyMetadata st k = some old → old.status = "active" →
      (getPrivateKey st k).2 = .ok (st.vaultPriv k)) := by
  refine ⟨?_, ?_, ?_, ?_⟩
  · intro st k c h1 h2
    unfold getPrivateKey
    simp only [h1]
    rw [if_pos h2]
  · intro st k old hm hk
    unfold rotateKey
    simp only [hm]
    rcases hu : updateKeyMetadata (generateKey st old.keyType (ownerParse old.owner).1
        (ownerParse old.owner).2 (old.publicKey.length * 8) old.rotationPolicy.name).1
        k "retired" with e | d
    · exact cacheLookup_set_ne st.cache k (st.uuid st.uuidCtr)
        ⟨st.vaultPriv (st.uuid st.uuidCtr), st.now + 5 * 60 * 1000⟩ hk
    · exact cacheLookup_set_ne st.cache k (st.uuid st.uuidCtr)
        ⟨st.vaultPriv (st.uuid st.uuidCtr), st.now + 5 * 60 * 1000⟩ hk
  · intro keyId keyType owner pub fp policy tags
    rfl
  · intro st k c old h1 h2 hm hst
    unfold getPrivateKey
    simp only [h1]
    rw [if_neg h2]
    unfold getPrivateKeyFresh
    have hm2 : getKeyMetadata { st with cache := cacheEraseKey st.cache k } k
        = some old := hm
    simp only [hm2]
    rw [hst]
    simp

/-- Witness for the amended claim C10 at concrete inputs. -/
theorem getPrivateKey_cache_rotation_behavior_witness :
    getPrivateKey stGen "key-0" = (stGen, .ok "PRIV-key-0") ∧
    cacheLookup stRot.cache "key-0" = cacheLookup stGen.cache "key-0" ∧
    (parseKeyMetadata (storeKeyMetadata "key-0" "data-encryption" (some "Patient/42")
      "PUB0" "FP0" ⟨"default", some 90, some 1000⟩ ["CONFIDENTIAL"])).status
        = "active" ∧
    (getPrivateKey stLater "key-0").2 = .ok (stLater.vaultPriv "key-0") := by
  have h := getPrivateKey_cache_rotation_behavior
  refine ⟨h.1 stGen "key-0" ⟨"PRIV-key-0", 300000⟩ rfl (by decide),
    h.2.1 stGen "key-0" pk0 rfl (by decide),
    h.2.2.1 "key-0" "data-encryption" (some "Patient/42") "PUB0" "FP0"
      ⟨"default", some 90, some 1000⟩ ["CONFIDENTIAL"],
    h.2.2.2 stLater "key-0" ⟨"PRIV-key-0", 300000⟩ pk0 rfl (by decide) rfl rfl⟩

end KMS

namespace Aes

lemma chunkData_cons (data : String) (n : Nat) (hd : data.data ≠ []) :
    ∃ c cs, chunkData data n = c :: cs := by
  unfold chunkData chunkBy
  rcases hdl : data.toList with _ | ⟨c, r⟩
  · exact absurd hdl hd
  · exact ⟨_, _, rfl⟩

/-- Claim C3: encrypt never returns an envelope for a nonempty payload.
The destructuring that receives the key and first initialization vector
from prepareKeyAndIV declares both bindings const, and the loop body ends
by reassigning iv to draw a fresh vector for the next chunk — a TypeError
on the very first chunk.  So decrypt of encrypt never yields the original
plaintext: the only payload that survives encryption is the empty string,
which produces an empty chunk array.  The round trip claim fails for every
payload with content, single chunk or multi chunk alike. -/
theorem encrypt_always_throws (st : AesState) (data keyId : String) (ckb : Nat)
    (ctx : Option (List Nat))
    (hk : (st.registry.find? (fun p => p.1 = keyId)).isSome = true)
    (hd : data ≠ "") :
    (encrypt st data keyId ckb ctx).2 =
      .error (.typeError "Assignment to constant variable") ∧
    (encrypt st "" keyId ckb ctx).2 = .ok (.multi []) := by
  rcases hf : st.registry.find? (fun p => p.1 = keyId) with _ | p
  · rw [hf] at hk; cases hk
  · have hdata : data.data ≠ [] := by
      intro hnil
      apply hd
      cases data
      simp at hnil
      simp [hnil]
    constructor
    · unfold encrypt prepareKeyAndIV
      simp only [hf, Option.map_some']
      rcases chunkData_cons data (ckb * 1024) hdata with ⟨c, cs, hc⟩
      rw [hc]
    · unfold encrypt prepareKeyAndIV
      simp only [hf, Option.map_some']
      rfl

/-- Witness for claim C3 at concrete inputs: the fixture payload makes
encrypt throw, while the empty payload yields the empty array. -/
theorem encrypt_always_throws_witness :
    (encrypt aesSt0 "systolic-bp:118" "ak-1" 64 none).2 =
      .error (.typeError "Assignment to constant variable") ∧
    (encrypt aesSt0 "" "ak-1" 64 none).2 = .ok (.multi []) :=
  encrypt_always_throws aesSt0 "systolic-bp:118" "ak-1" 64 none rfl (by decide)

/-- Claim C4 counterexample: the CBC AesService of src/backend/aesService.js
attaches no authentication tag, and flipping one bit of the first
ciphertext block leaves the padding of the final block intact — decrypt
succeeds and silently returns a corrupted plaintext instead of failing with
an authentication error. -/
theorem cbc_silent_corruption_counterexample :
    Cbc.cbcDecrypt Cbc.cbcKeyC Cbc.cbcIvC Cbc.cbcTampered = .ok Cbc.cbcPtX ∧
    Cbc.cbcPtX ≠ Cbc.cbcPtC := by
  exact ⟨rfl, by decide⟩

/-- Claim C4 as amended: in the chunked GCM AesService of part_016, decrypt
fails with the authentication failure on every chunk whose tag does not
match the tag of the key, the recorded initialization vector, the
associated data and the ciphertext — in particular flipping any bit of a
valid tag is always rejected — while the CBC AesService of
src/backend/aesService.js never raises an authentication failure at all:
its only check is the padding of the final block, so tampered ciphertext
can decrypt silently to corrupted plaintext. -/
theorem decrypt_auth_behavior :
    (∀ key ctx ch, ch.tag ≠ gcmTag key ch.iv (aadBytes ctx ch.index) ch.data →
      decryptChunk key ctx ch = .error .authFailure) ∧
    (∀ key ctx ch pt b, decryptChunk key ctx ch = .ok pt →
      decryptChunk key ctx { ch with tag := ch.tag ^^^ (1 <<< b) } =
        .error .authFailure) ∧
    (∀ key iv ct, Cbc.cbcDecrypt key iv ct ≠ .error .authFailure) := by
  refine ⟨?_, ?_, ?_⟩
  · intro key ctx ch h
    unfold decryptChunk
    rw [if_neg h]
  · intro key ctx ch pt b h
    have htag : ch.tag = gcmTag key ch.iv (aadBytes ctx ch.index) ch.data := by
      by_cases hc : ch.tag = gcmTag key ch.iv (aadBytes ctx ch.index) ch.data
      · exact hc
      · unfold decryptChunk at h
        rw [if_neg hc] at h
        cases h
    unfold decryptChunk
    rw [if_neg ?_]
    intro heq
    simp only at heq
    rw [← htag] at heq
    have h2 := congrArg (fun x => x ^^^ ch.tag) heq
    simp only at h2
    rw [Nat.xor_comm ch.tag (1 <<< b), Nat.xor_cancel_right, Nat.xor_self] at h2
    have : (0 : Nat) < 1 <<< b := by
      rw [Nat.shiftLeft_eq, one_mul]
      exact Nat.pos_pow_of_pos b (by omega)
    omega
  · intro key iv ct h
    unfold Cbc.cbcDecrypt Cbc.unpad at h
    rcases hg : ((Cbc.cbcDecBlocks (Cbc.ksb key) iv (chunkBy 15 ct)).flatten).getLast?
        with _ | k
    · simp only [hg] at h
      cases h
    · simp only [hg] at h
      split at h
      · cases h
      · cases h

set_option maxRecDepth 8192 in
/-- Witness for the amended claim C4 at concrete inputs: a data flip and a
tag flip on the fixture chunk are both rejected with the authentication
failure, the valid fixture chunk round trips, and the tampered CBC
ciphertext produces no authentication failure. -/
theorem decrypt_auth_behavior_witness :
    decryptChunk gcmKeyC none { gcmChunkC with data := Cbc.flipBit gcmChunkC.data 0 0 }
      = .error .authFailure ∧
    decryptChunk gcmKeyC none { gcmChunkC with tag := gcmChunkC.tag ^^^ (1 <<< 0) }
      = .error .authFailure ∧
    Cbc.cbcDecrypt Cbc.cbcKeyC Cbc.cbcIvC Cbc.cbcTampered ≠ .error .authFailure ∧
    decryptChunk gcmKeyC none gcmChunkC = .ok gcmPtC := by
  have h := decrypt_auth_behavior
  refine ⟨h.1 gcmKeyC none _ (by decide),
    h.2.1 gcmKeyC none gcmChunkC gcmPtC 0 (by rfl),
    h.2.2 Cbc.cbcKeyC Cbc.cbcIvC Cbc.cbcTampered, rfl⟩

end Aes

end UHRH
